import Mathlib

/-!
# Verification of the distributed key-value store core

Shallow embedding of the consistent-hash ring manager
(`hashring/hashring.go`), the replicated store (`store/store.go`) and the
health monitor (`store/health.go`), together with theorems settling the
specification claims about them.

Machine integers (`uint32`) are modelled as `Nat` reduced modulo `2^32`
at every arithmetic step where overflow matters.  Go maps are modelled as
functions into `Option`; the Go zero value `NodeMap{"", 0}` is recovered
with `Option.getD`.  Network effects are modelled by an explicit oracle
assigning each peer an outcome, and by returning the list of outbound
requests an operation issues.  Loops without a structural bound carry a
fuel parameter; `none` denotes non-termination of the Go loop.
-/

namespace KVStore

/-! ## FNV-1a 32-bit hash (`hash/fnv`, as used by `HashStr`) -/

/-- UTF-8 encoding of a Unicode code point, as Go produces for a string's
bytes.  All identifiers used concretely below are ASCII. -/
def utf8Bytes (c : Nat) : List Nat :=
  if c < 0x80 then [c]
  else if c < 0x800 then
    [0xC0 + c / 0x40, 0x80 + c % 0x40]
  else if c < 0x10000 then
    [0xE0 + c / 0x1000, 0x80 + (c / 0x40) % 0x40, 0x80 + c % 0x40]
  else
    [0xF0 + c / 0x40000, 0x80 + (c / 0x1000) % 0x40,
     0x80 + (c / 0x40) % 0x40, 0x80 + c % 0x40]

/-- The bytes of a string, Go `[]byte(s)`. -/
def strBytes (s : String) : List Nat :=
  s.data.foldr (fun c acc => utf8Bytes c.toNat ++ acc) []

/-- One step of FNV-1a: xor the byte in, multiply by the FNV prime,
truncate to 32 bits. -/
def fnvStep (h b : Nat) : Nat := ((Nat.xor h b) * 16777619) % 4294967296

/-- FNV-1a 32-bit hash of a byte sequence (offset basis 2166136261). -/
def fnv32a (bs : List Nat) : Nat := bs.foldl fnvStep 2166136261

/-- Function `HashStr` (hashring.go): FNV-1a of the UTF-8 bytes of the key. -/
def hashStr (s : String) : Nat := fnv32a (strBytes s)

/-! ## Ring manager state -/

/-- Go struct `NodeMap` (hashring.go): owner and virtual-node id of a ring position. -/
structure NodeMap where
  Node : String
  VirtualNodeID : Nat
deriving DecidableEq, Repr

/-- Go struct `HashRingManager` (hashring.go): position→owner map, the ring of
32-bit positions, and the active-peers set (modelled as a duplicate-free
list). -/
structure HRM where
  hashMap : Nat → Option NodeMap
  ring : List Nat
  activeNodes : List String

/-- Map update, Go `m[k] = v`. -/
def mapPut (m : Nat → Option NodeMap) (k : Nat) (v : NodeMap) : Nat → Option NodeMap :=
  fun x => if x = k then some v else m x

/-- Map deletion, Go `delete(m, k)`. -/
def mapDel (m : Nat → Option NodeMap) (k : Nat) : Nat → Option NodeMap :=
  fun x => if x = k then none else m x

/-- The virtual-node key `"<node>#<vn>"`. -/
def vnKey (node : String) (vn : Nat) : String := node ++ "#" ++ toString vn

/-- The 100 virtual-node hashes of a peer, in virtual-node order
(`VirtualNodesFactor = 100`). -/
def genPositions (node : String) : List Nat :=
  (List.range 100).map (fun vn => hashStr (vnKey node vn))

/-- Insertion into a sorted list (used to model Go's `sort.Sort` on the
ring: any correct sort of the `uint32` values). -/
def insSorted (x : Nat) : List Nat → List Nat
  | [] => [x]
  | y :: ys => if x ≤ y then x :: y :: ys else y :: insSorted x ys

/-- Sorting of the ring, Go `sort.Sort(h.ring)`. -/
def sortRing (l : List Nat) : List Nat := l.foldr insSorted []

/-- Go's `sort.Search` binary-search loop
(`i, j := 0, n; for i < j { h := (i+j)/2; if !f(h) { i = h+1 } else { j = h } }`).
The gap `j - i` at least halves each step, so `n` steps always suffice. -/
def searchLoop (f : Nat → Bool) : Nat → Nat → Nat → Nat
  | 0, i, _ => i
  | fuel + 1, i, j =>
    if i < j then
      let m := (i + j) / 2
      if f m then searchLoop f fuel i m else searchLoop f fuel (m + 1) j
    else i

/-- Go `sort.Search(n, f)`. -/
def sortSearch (n : Nat) (f : Nat → Bool) : Nat := searchLoop f n 0 n

/-- Function `generateHashRing` (hashring.go): append every active peer's 100
virtual positions, record their owners, then sort the ring. -/
def generateHashRing (activeNodes : List String) : HRM :=
  let hm := activeNodes.foldl
    (fun m node =>
      (List.range 100).foldl
        (fun m' vn => mapPut m' (hashStr (vnKey node vn)) ⟨node, vn⟩) m)
    (fun _ => none)
  let positions := activeNodes.foldl (fun acc node => acc ++ genPositions node) []
  { hashMap := hm, ring := sortRing positions, activeNodes := activeNodes }

/-- Function `NewHashRingManager` (hashring.go): the active set is the given peer
list with set semantics (a Go map keyed by peer). -/
def NewHashRingManager (nodes : List String) : HRM :=
  let active := nodes.foldl (fun acc n => if acc.contains n then acc else acc ++ [n]) []
  generateHashRing active

/-- Function `GetRingIndex` (hashring.go lines 241-258): binary search for the
least index whose position is ≥ `hash`; the `i == len-1 && ring[i] < hash`
branch returns 0, and `i == len` yields the "hash is out of range" error. -/
def GetRingIndex (ring : List Nat) (hash : Nat) : Except String Nat :=
  if ring.length = 0 then .error "ring is empty"
  else
    let i := sortSearch ring.length (fun j => hash ≤ ring.getD j 0)
    if i < ring.length then
      if i = ring.length - 1 ∧ ring.getD i 0 < hash then .ok 0 else .ok i
    else .error "hash is out of range"

/-- Function `GetNodeMapForRingIndex` (hashring.go): bounds check, then the hash
map's entry for the position (Go's zero value `NodeMap{"", 0}` when the
position is absent from the map). -/
def GetNodeMapForRingIndex (rm : HRM) (index : Nat) : Except String NodeMap :=
  if index < rm.ring.length then
    .ok ((rm.hashMap (rm.ring.getD index 0)).getD ⟨"", 0⟩)
  else .error "index out of range"

/-- Function `RemoveNode` (hashring.go lines 260-278): drop the peer from the
active set, then for each virtual node in order search the (shrinking)
ring for its hash and erase the position and map entry when found. -/
def RemoveNode (rm : HRM) (node : String) : HRM :=
  let active := rm.activeNodes.filter (fun n => n ≠ node)
  let step := fun (st : List Nat × (Nat → Option NodeMap)) (hsh : Nat) =>
    let (r, m) := st
    let pos := sortSearch r.length (fun j => hsh ≤ r.getD j 0)
    if pos < r.length ∧ r.getD pos 0 = hsh then (r.eraseIdx pos, mapDel m hsh)
    else (r, m)
  let fin := (genPositions node).foldl step (rm.ring, rm.hashMap)
  { hashMap := fin.2, ring := fin.1, activeNodes := active }

/-- State threaded through `AddNode`'s merge loop: pending insertion
positions and hashes, `currentIndex`, the hash map, and the prefix of the
new ring built so far. -/
structure MergeSt where
  ps : List Nat
  hs : List Nat
  cur : Nat
  hm : Nat → Option NodeMap
  acc : List Nat

/-- The inner `for len(positionsToAdd) > 0 && i == positionsToAdd[0]`
loop of `AddNode`: insert pending hashes whose recorded position equals
the current old-ring index `i`. -/
def addWhile (node : String) (i : Nat) :
    List Nat → List Nat → Nat → (Nat → Option NodeMap) → List Nat → MergeSt
  | p :: ps, hsh :: hs, cur, hm, acc =>
    if p = i then
      addWhile node i ps hs (cur + 1) (mapPut hm hsh ⟨node, cur % 100⟩) (acc ++ [hsh])
    else ⟨p :: ps, hsh :: hs, cur, hm, acc⟩
  | ps, hs, cur, hm, acc => ⟨ps, hs, cur, hm, acc⟩

/-- The outer `for i, hash := range h.ring` loop of `AddNode`. -/
def addMergeLoop (node : String) : List (Nat × Nat) → MergeSt → MergeSt
  | [], st => st
  | (i, hsh) :: rest, st =>
    let st' := addWhile node i st.ps st.hs st.cur st.hm st.acc
    addMergeLoop node rest
      { st' with acc := st'.acc ++ [hsh], cur := st'.cur + 1 }

/-- The trailing `for _, hash := range hashesToAdd` loop of `AddNode`:
append every hash not consumed by the merge. -/
def addLeftover (node : String) :
    List Nat → Nat → (Nat → Option NodeMap) → List Nat →
    ((Nat → Option NodeMap) × List Nat)
  | [], _, hm, acc => (hm, acc)
  | hsh :: hs, cur, hm, acc =>
    addLeftover node hs (cur + 1) (mapPut hm hsh ⟨node, cur % 100⟩) (acc ++ [hsh])

/-- Function `AddNode` (hashring.go lines 280-328): mark the peer active, compute
each virtual hash's insertion position against the current ring, then
merge old ring and new hashes into a fresh ring (no re-sort). -/
def AddNode (rm : HRM) (node : String) : HRM :=
  let active :=
    if rm.activeNodes.contains node then rm.activeNodes else rm.activeNodes ++ [node]
  let hashesToAdd := genPositions node
  let positionsToAdd := hashesToAdd.map
    (fun hsh => sortSearch rm.ring.length (fun j => hsh ≤ rm.ring.getD j 0))
  let st₀ : MergeSt := ⟨positionsToAdd, hashesToAdd, 0, rm.hashMap, []⟩
  let st₁ := addMergeLoop node rm.ring.enum st₀
  let fin := addLeftover node st₁.hs st₁.cur st₁.hm st₁.acc
  { hashMap := fin.1, ring := fin.2, activeNodes := active }

/-- Function `HasNode` (hashring.go lines 347-353): membership in the active set. -/
def HasNode (rm : HRM) (node : String) : Bool := rm.activeNodes.contains node

/-- Number of ring positions whose recorded owner is `p`. -/
def countOwned (rm : HRM) (p : String) : Nat :=
  rm.ring.countP (fun h => ((rm.hashMap h).getD ⟨"", 0⟩).Node == p)

/-- Boolean ascending-sortedness of a position list. -/
def isSortedB : List Nat → Bool
  | [] => true
  | [_] => true
  | a :: b :: t => a ≤ b && isSortedB (b :: t)

/-! ## Store (`store/store.go`) -/

/-- Outcome of one outbound peer request, as the environment decides it:
request construction failed, transport error (includes the 2 s timeout),
or an HTTP status code. -/
inductive PeerOutcome
  | reqError
  | transportError
  | status (code : Nat)
deriving DecidableEq, Repr

/-- The error `replicateNode` (store.go lines 128-151) pushes on the
`errs` channel for a failed sub-request. -/
inductive ReplFailure
  | requestFailed (node : String)
  | transport (node : String)
  | badStatus (node : String) (code : Nat)
deriving DecidableEq, Repr

/-- Function `replicateNode` (store.go lines 128-151): `nil` on the channel iff
the response arrived with status < 400. -/
def peerResult (node : String) (o : PeerOutcome) : Option ReplFailure :=
  match o with
  | .reqError => some (.requestFailed node)
  | .transportError => some (.transport node)
  | .status c => if 400 ≤ c then some (.badStatus node c) else none

/-- Error returned by `replicate` (store.go lines 157-215):
`quorumNotMet` is the `"not enough replicas for write quorum: %d"` error
carrying only the success count, `multi` is the `MultiError` listing one
sub-error per failed peer, `ringError` propagates a ring-manager error. -/
inductive RepError
  | quorumNotMet (successCount : Nat)
  | multi (failures : List ReplFailure)
  | ringError (msg : String)
deriving DecidableEq, Repr

/-- Counter `successCount` after draining the `errs` channel: the number of `nil`
entries. -/
def successCount (rs : List (Option ReplFailure)) : Nat :=
  (rs.filter (fun r => r.isNone)).length

/-- The `MultiError` accumulated from the channel: every non-`nil` entry. -/
def failuresOf (rs : List (Option ReplFailure)) : List ReplFailure :=
  rs.filterMap id

/-- The tail of `replicate` (store.go lines 198-214): quorum check first,
then the partial-failure check, else success (`none`). -/
def quorumOutcome (writeQuorum : Nat) (rs : List (Option ReplFailure)) :
    Option RepError :=
  if successCount rs < writeQuorum then some (.quorumNotMet (successCount rs))
  else if 0 < (failuresOf rs).length then some (.multi (failuresOf rs))
  else none

/-- The node-selection loop of `replicate` (store.go lines 171-191):
`for i := 0; i < R; { ...; if new node { select; i++ } else { idx++ } }`.
The Go loop has no structural bound, so it carries fuel; `none` models
non-termination. -/
def selectLoop (rm : HRM) (r : Nat) :
    Nat → Nat → Nat → List String → Option (Except String (List String))
  | 0, _, _, _ => none
  | fuel + 1, i, idx, selected =>
    if i < r then
      match GetNodeMapForRingIndex rm ((idx + i) % rm.ring.length) with
      | .error e => some (.error e)
      | .ok nm =>
        if nm.Node ∈ selected then
          selectLoop rm r fuel i (idx + 1) selected
        else
          selectLoop rm r fuel (i + 1) idx (selected ++ [nm.Node])
    else some (.ok selected)

/-- An outbound replication request as `replicateNode` issues it
(URL `http://<node>/<key>`, the method, the body, and the
`X-Replication: true` header are all determined by these fields). -/
structure Request where
  node : String
  method : String
  key : String
  value : String
deriving DecidableEq, Repr

/-- Go struct `Store` (store.go): local map, configured peers, ring manager handle
and the replication parameters. -/
structure StoreSt where
  data : String → Option String
  nodes : List String
  ringManager : HRM
  replicationFactor : Nat
  readQuorum : Nat
  writeQuorum : Nat

/-- Function `replicate` (store.go lines 157-215): immediate success when the
replication factor is zero; otherwise resolve the primary slot, walk the
ring for distinct peers (spawning one request per selected peer), then
score the joined outcomes against the write quorum.  Returns the issued
requests and the result; `none` models a non-terminating selection walk. -/
def replicate (s : StoreSt) (oracle : String → PeerOutcome)
    (method key value : String) (fuel : Nat) :
    Option (List Request × Option RepError) :=
  if s.replicationFactor = 0 then some ([], none)
  else
    match GetRingIndex s.ringManager.ring (hashStr key) with
    | .error e => some ([], some (.ringError e))
    | .ok idx =>
      match selectLoop s.ringManager s.replicationFactor fuel 0 idx [] with
      | none => none
      | some (.error e) => some ([], some (.ringError e))
      | some (.ok nodes) =>
        some (nodes.map (fun n => Request.mk n method key value),
              quorumOutcome s.writeQuorum
                (nodes.map (fun n => peerResult n (oracle n))))

/-- Error returned by `Set`/`Delete` (store.go): the two validation
messages and the wrapped replication failure
(`"failed to set value with replication: %v"`). -/
inductive StoreError
  | emptyKeyOrValue
  | emptyKey
  | replicationFailed (e : RepError)
deriving DecidableEq, Repr

/-- Function `handleReplication` (store.go lines 114-123): fan out unless the
mutation is a replication echo; wrap any replication error. -/
def handleReplication (s : StoreSt) (oracle : String → PeerOutcome)
    (skipReplication : Bool) (method key value : String) (fuel : Nat) :
    Option (List Request × Option StoreError) :=
  if !skipReplication then
    (replicate s oracle method key value fuel).map
      (fun p => (p.1, p.2.map .replicationFailed))
  else some ([], none)

/-- The local-map update `s.data[key] = value` performed by `Set`. -/
def setData (s : StoreSt) (key value : String) : StoreSt :=
  { s with data := fun k => if k = key then some value else s.data k }

/-- The local-map deletion `delete(s.data, key)` performed by `Delete`. -/
def delData (s : StoreSt) (key : String) : StoreSt :=
  { s with data := fun k => if k = key then none else s.data k }

/-- Function `Set` (store.go lines 85-95): validate, update the local map, then
hand off to replication.  The result is the new store state, the list of
outbound requests, and the returned error if any. -/
def SetOp (s : StoreSt) (key value : String) (skipReplication : Bool)
    (oracle : String → PeerOutcome) (fuel : Nat) :
    Option (StoreSt × List Request × Option StoreError) :=
  if key = "" ∨ value = "" then some (s, [], some .emptyKeyOrValue)
  else
    let s' := setData s key value
    (handleReplication s' oracle skipReplication "PUT" key value fuel).map
      (fun p => (s', p.1, p.2))

/-- Function `Delete` (store.go lines 102-112). -/
def DeleteOp (s : StoreSt) (key : String) (skipReplication : Bool)
    (oracle : String → PeerOutcome) (fuel : Nat) :
    Option (StoreSt × List Request × Option StoreError) :=
  if key = "" then some (s, [], some .emptyKey)
  else
    let s' := delData s key
    (handleReplication s' oracle skipReplication "DELETE" key "" fuel).map
      (fun p => (s', p.1, p.2))

/-- Function `Get` (store.go lines 73-78): the value and presence flag (Go's zero
value `""` when absent). -/
def GetOp (s : StoreSt) (key : String) : String × Bool :=
  match s.data key with
  | some v => (v, true)
  | none => ("", false)

/-- Function `NewStore` (store.go lines 46-67): quorums `⌊N/2⌋ + 1`, with the
single-node special case forcing both quorums to 1 and the replication
factor to 0. -/
def NewStore (nodes : List String) (replicationFactor : Nat) : StoreSt :=
  let halfNodes := nodes.length / 2
  let readQuorum := halfNodes + 1
  let writeQuorum := halfNodes + 1
  if nodes.length = 1 then
    { data := fun _ => none, nodes := nodes,
      ringManager := NewHashRingManager nodes,
      replicationFactor := 0, readQuorum := 1, writeQuorum := 1 }
  else
    { data := fun _ => none, nodes := nodes,
      ringManager := NewHashRingManager nodes,
      replicationFactor := replicationFactor,
      readQuorum := readQuorum, writeQuorum := writeQuorum }

/-! ## Health monitor (`store/health.go`) -/

/-- Result of one liveness probe: transport failure (or timeout), or a
response with the given status code. -/
inductive ProbeResult
  | transportError
  | status (code : Nat)
deriving DecidableEq, Repr

/-- Function `checkNode` (health.go lines 28-40): remove the peer from the ring
when the probe fails or the status is not 200; otherwise only log
(the source carries `// TODO: re-add node if it's back up`). -/
def checkNode (rm : HRM) (node : String) (probe : ProbeResult) : HRM :=
  match probe with
  | .transportError => RemoveNode rm node
  | .status c => if c ≠ 200 then RemoveNode rm node else rm

/-! ## Concrete fixtures for witnesses and counterexamples -/

/-- Position→owner map of a small three-peer ring used as a fixture: the
top position is owned by peer `a` so that every key hash resolves. -/
def hmW : Nat → Option NodeMap := fun h =>
  if h = 10 then some ⟨"b", 0⟩
  else if h = 20 then some ⟨"c", 0⟩
  else if h = 4294967295 then some ⟨"a", 0⟩
  else none

/-- Three-peer ring fixture with one position per peer. -/
def rmW : HRM := ⟨hmW, [10, 20, 4294967295], ["a", "b", "c"]⟩

/-- Store fixture over `rmW`: three configured peers, replication factor
3, write quorum 2 (the quorums `NewStore` assigns three peers). -/
def sW : StoreSt := ⟨fun _ => none, ["a", "b", "c"], rmW, 3, 2, 2⟩

/-- Oracle fixture: peer `c` answers 500, every other peer answers 200. -/
def oracleMixed : String → PeerOutcome := fun n =>
  if n = "c" then .status 500 else .status 200

/-- Oracle fixture: every peer is unreachable. -/
def oracleDown : String → PeerOutcome := fun _ => .transportError

/-- Ring fixture with a single position, owned by the only remaining
peer `a` (the state after every other peer was removed by health checks). -/
def rmC6 : HRM :=
  ⟨fun h => if h = 4294967295 then some ⟨"a", 0⟩ else none, [4294967295], ["a"]⟩

/-- Store fixture over `rmC6`: two configured peers but only one left on
the ring, replication factor 2. -/
def sC6 : StoreSt := ⟨fun _ => none, ["a", "b"], rmC6, 2, 2, 2⟩

/-- Ring manager fixture for the health monitor: built from peers
`a` and `b`, after the health loop removed the unreachable peer `b`. -/
def rmDown : HRM := RemoveNode (NewHashRingManager ["a", "b"]) "b"

/-! ## Theorems -/

set_option maxRecDepth 100000

/-- C3: the claim says a hash greater than every ring position wraps to
ring index 0; `GetRingIndex` instead falls through `sort.Search` returning
`len` and yields the "hash is out of range" error (its wrap branch
`i == len-1 && ring[i] < hash` is unreachable on a sorted ring).  On the
100-position ring of peer `a`, the hash `2^32 - 1` is larger than every
position, yet the lookup errors rather than returning index 0.  The
empty-ring error of the claim does hold. -/
theorem c3_wrap_returns_error_not_zero :
    GetRingIndex (NewHashRingManager ["a"]).ring 4294967295 =
      Except.error "hash is out of range" ∧
    (NewHashRingManager ["a"]).ring.all (fun x => x < 4294967295) = true ∧
    (NewHashRingManager ["a"]).ring.length = 100 ∧
    GetRingIndex ([] : List Nat) 4294967295 = Except.error "ring is empty" :=
  ⟨rfl, by decide, by decide, rfl⟩

/-- C4: the claim says `AddNode` is idempotent on an already-active peer
(no duplicate positions) and that every active peer owns exactly V = 100
positions.  Re-adding the already-active peer `a` instead appends its 100
virtual hashes a second time: the ring grows from 100 to 200 positions,
all 200 owned by `a` — contradicting the repository's own
`TestAddExistingNode`, which expects the length to stay `len(nodes) * 100`. -/
theorem c4_add_existing_node_duplicates :
    HasNode (NewHashRingManager ["a"]) "a" = true ∧
    (NewHashRingManager ["a"]).ring.length = 100 ∧
    (AddNode (NewHashRingManager ["a"]) "a").ring.length = 200 ∧
    countOwned (AddNode (NewHashRingManager ["a"]) "a") "a" = 200 ∧
    countOwned (RemoveNode (NewHashRingManager ["a", "b"]) "b") "b" = 0 :=
  ⟨by decide, by decide, by decide, by decide, by decide⟩

/-- C5: the claim says the ring is sorted after every mutation.
`RemoveNode` preserves sortedness, but `AddNode` merges the new hashes at
positions that were computed in virtual-node order (not ascending) and
never re-sorts: adding peer `a` to the empty ring appends its 100 hashes
in virtual-node order, and the very first two
(`hash(a#0) = 4037809751 > hash(a#1) = 4021032132`) are already out of
order. -/
theorem c5_addnode_breaks_sort_invariant :
    isSortedB (NewHashRingManager []).ring = true ∧
    isSortedB (AddNode (NewHashRingManager []) "a").ring = false ∧
    (AddNode (NewHashRingManager []) "a").ring.take 2 =
      [4037809751, 4021032132] :=
  ⟨by decide, by decide, by decide⟩

/-- C7: the claim says a healthy probe re-adds a peer that is not on the
ring.  `checkNode` only removes on an unhealthy probe; on a healthy
(status 200) probe it logs and returns — the source itself carries
`// TODO: re-add node if it's back up`.  So for any ring manager state in
which the peer is absent, a healthy probe leaves the state unchanged
instead of calling `AddNode`. -/
theorem c7_healthy_probe_never_readds (rm : HRM) (node : String)
    (_h : HasNode rm node = false) :
    checkNode rm node (.status 200) = rm := rfl

/-- Witness for C7: the fixture ring where peer `b` was removed; `b` is
not on the ring, and its healthy probe changes nothing. -/
theorem c7_witness :
    HasNode rmDown "b" = false ∧ checkNode rmDown "b" (.status 200) = rmDown :=
  ⟨by decide, c7_healthy_probe_never_readds rmDown "b" (by decide)⟩

/-- Helper: once every position's owner has already been selected and
fewer than `r` peers were collected, the selection loop of `replicate`
only ever increments `idx` and never terminates, whatever the fuel. -/
theorem selectLoop_saturated (rm : HRM) (r i : Nat) (selected : List String)
    (hi : i < r) (hlen : 0 < rm.ring.length)
    (hall : ∀ j, j < rm.ring.length →
      ((rm.hashMap (rm.ring.getD j 0)).getD ⟨"", 0⟩).Node ∈ selected) :
    ∀ fuel idx, selectLoop rm r fuel i idx selected = none := by
  intro fuel
  induction fuel with
  | zero => intro idx; rfl
  | succ n ih =>
    intro idx
    have hidx : (idx + i) % rm.ring.length < rm.ring.length :=
      Nat.mod_lt _ hlen
    have hnode : GetNodeMapForRingIndex rm ((idx + i) % rm.ring.length) =
        Except.ok ((rm.hashMap
          (rm.ring.getD ((idx + i) % rm.ring.length) 0)).getD ⟨"", 0⟩) := by
      unfold GetNodeMapForRingIndex
      rw [if_pos hidx]
    have hmem := hall _ hidx
    simp only [selectLoop, hnode, if_pos hi, if_pos hmem]
    exact ih (idx + 1)

/-- C6: the claim says the replica-selection walk always terminates, and
that with fewer than R distinct peers on the ring it stops after visiting
all positions, yielding the smaller peer set.  In the code the walk
(`for i := 0; i < R; { ... else { idx++ } }`) spins forever once every
ring position's owner is already selected: on the fixture store whose
ring has a single peer but replication factor 2, `Set` never returns,
for every amount of fuel. -/
theorem c6_selection_walk_never_terminates :
    ∀ (oracle : String → PeerOutcome) (fuel : Nat),
      SetOp sC6 "k" "v" false oracle fuel = none := by
  intro oracle fuel
  have hdiv : selectLoop rmC6 2 fuel 0 0 [] = none := by
    match fuel with
    | 0 => rfl
    | n + 1 =>
      show selectLoop rmC6 2 n 1 0 ["a"] = none
      exact selectLoop_saturated rmC6 2 1 ["a"] (by decide) (by decide)
        (fun j hj => by
          have hl : rmC6.ring.length = 1 := rfl
          rw [hl] at hj
          have hj0 : j = 0 := by omega
          subst hj0
          decide) n 0
  have e1 : SetOp sC6 "k" "v" false oracle fuel =
      ((replicate (setData sC6 "k" "v") oracle "PUT" "k" "v" fuel).map
          (fun p => (p.1, p.2.map StoreError.replicationFailed))).map
        (fun p => (setData sC6 "k" "v", p.1, p.2)) := rfl
  have e2 : replicate (setData sC6 "k" "v") oracle "PUT" "k" "v" fuel = none := by
    have h := hdiv
    calc replicate (setData sC6 "k" "v") oracle "PUT" "k" "v" fuel
        = (match selectLoop rmC6 2 fuel 0 0 [] with
          | none => (none : Option (List Request × Option RepError))
          | some (Except.error e) => some ([], some (RepError.ringError e))
          | some (Except.ok nodes) =>
            some (nodes.map (fun n => Request.mk n "PUT" "k" "v"),
              quorumOutcome 2 (nodes.map (fun n => peerResult n (oracle n))))) := rfl
      _ = none := by rw [h]
  rw [e1, e2]
  rfl

/-- Counterexample to C1 as stated: on the fixture store (write quorum 2,
replication factor 3) with peers `a` and `b` acking and peer `c`
answering 500, the number of successful acks is 2 ≥ writeQuorum = 2, yet
`Set` does NOT return success — it returns the `MultiError` listing the
failure of `c`.  Moreover the composite error appears exactly when the
quorum IS met, not (as the claim says) when it is missed. -/
theorem c1_counterexample :
    (SetOp sW "k" "v" false oracleMixed 9).map (fun t => (t.2.1.map Request.node, t.2.2)) =
      some (["a", "b", "c"],
        some (.replicationFailed (.multi [.badStatus "c" 500]))) ∧
    sW.writeQuorum = 2 ∧
    successCount (["a", "b", "c"].map (fun n => peerResult n (oracleMixed n))) = 2 :=
  ⟨rfl, rfl, rfl⟩

/-- C1 (amended): a fanning-out mutation returns success iff the
successful acks reach the write quorum AND no peer failed; when the
quorum is not met the error is a plain quorum-not-met error carrying only
the success count; when the quorum is met but some peer failed the result
is the composite `MultiError` listing one failure per failed peer.  The
second conjunct ties the accounting to `Set`: whenever the ring lookup
and the selection walk complete, `Set`'s result is exactly the quorum
accounting of the per-peer outcomes, alongside one outbound request per
selected peer. -/
theorem c1_quorum_accounting :
    (∀ (wq : Nat) (rs : List (Option ReplFailure)),
      (quorumOutcome wq rs = none ↔ wq ≤ successCount rs ∧ failuresOf rs = []) ∧
      (successCount rs < wq →
        quorumOutcome wq rs = some (.quorumNotMet (successCount rs))) ∧
      (wq ≤ successCount rs → failuresOf rs ≠ [] →
        quorumOutcome wq rs = some (.multi (failuresOf rs)))) ∧
    (∀ (s : StoreSt) (k v : String) (oracle : String → PeerOutcome)
        (fuel idx : Nat) (nodes : List String),
      s.replicationFactor ≠ 0 → k ≠ "" → v ≠ "" →
      GetRingIndex s.ringManager.ring (hashStr k) = Except.ok idx →
      selectLoop s.ringManager s.replicationFactor fuel 0 idx [] =
        some (Except.ok nodes) →
      SetOp s k v false oracle fuel =
        some (setData s k v,
          nodes.map (fun n => Request.mk n "PUT" k v),
          (quorumOutcome s.writeQuorum
            (nodes.map (fun n => peerResult n (oracle n)))).map
            StoreError.replicationFailed)) := by
  constructor
  · intro wq rs
    refine ⟨?_, ?_, ?_⟩
    · unfold quorumOutcome
      split_ifs with h1 h2
      · constructor
        · intro h
          exact absurd h (by simp)
        · rintro ⟨hle, -⟩
          omega
      · constructor
        · intro h
          exact absurd h (by simp)
        · rintro ⟨-, hnil⟩
          rw [hnil] at h2
          simp at h2
      · constructor
        · intro _
          refine ⟨by omega, ?_⟩
          have hlen : (failuresOf rs).length = 0 := by omega
          exact List.length_eq_zero.mp hlen
        · intro _
          rfl
    · intro h
      unfold quorumOutcome
      rw [if_pos h]
    · intro h1 h2
      unfold quorumOutcome
      rw [if_neg (by omega), if_pos (List.length_pos.mpr h2)]
  · intro s k v oracle fuel idx nodes hR hk hv hidx hsel
    simp only [SetOp, handleReplication, replicate, setData] at *
    simp only [hk, hv, hR, hidx, hsel]
    simp

/-- Witness for C1 (amended): on the fixture store the ring lookup yields
primary slot 2, the walk selects `a`, `b`, `c`, and `Set`'s result is the
quorum accounting of the mixed outcomes. -/
theorem c1_witness :
    SetOp sW "k" "v" false oracleMixed 9 =
      some (setData sW "k" "v",
        ["a", "b", "c"].map (fun n => Request.mk n "PUT" "k" "v"),
        (quorumOutcome 2
          (["a", "b", "c"].map (fun n => peerResult n (oracleMixed n)))).map
          StoreError.replicationFailed) :=
  c1_quorum_accounting.2 sW "k" "v" oracleMixed 9 2 ["a", "b", "c"]
    (by decide) (by decide) (by decide) rfl rfl

/-- C2: a mutation carrying the replication marker (`skipReplication =
true`) never fans out: `Set` and `Delete` issue zero outbound requests,
apply the mutation to the local map when the inputs are valid, and
return the validation error (still with zero outbound requests)
otherwise. -/
theorem c2_replication_echo_no_fanout :
    ∀ (s : StoreSt) (k v : String) (oracle : String → PeerOutcome) (fuel : Nat),
      SetOp s k v true oracle fuel =
        some (if k = "" ∨ v = "" then (s, [], some .emptyKeyOrValue)
              else (setData s k v, [], none)) ∧
      DeleteOp s k true oracle fuel =
        some (if k = "" then (s, [], some .emptyKey)
              else (delData s k, [], none)) := by
  intro s k v oracle fuel
  constructor
  · unfold SetOp handleReplication
    split_ifs <;> first | rfl | simp_all
  · unfold DeleteOp handleReplication
    split_ifs <;> first | rfl | simp_all

/-- C8: `Set` updates the local map before any fan-out begins, and the
update survives whatever the replication outcome is: whenever
`Set(k, v, false)` returns at all — success, quorum failure, or any other
replication error — the resulting state maps `k` to `v` and `Get`
returns `(v, true)`. -/
theorem c8_local_write_survives_failure
    (s : StoreSt) (k v : String) (oracle : String → PeerOutcome) (fuel : Nat)
    (out : StoreSt × List Request × Option StoreError)
    (hk : k ≠ "") (hv : v ≠ "")
    (h : SetOp s k v false oracle fuel = some out) :
    out.1.data k = some v ∧ GetOp out.1 k = (v, true) := by
  simp only [SetOp, hk, hv] at h
  simp only [false_or, if_false] at h
  cases hr : handleReplication (setData s k v) oracle false "PUT" k v fuel with
  | none =>
    rw [hr] at h
    simp at h
  | some p =>
    rw [hr] at h
    simp only [Option.map_some'] at h
    injection h with h2
    rw [← h2]
    refine ⟨by simp [setData], by simp [GetOp, setData]⟩

/-- Witness for C8: on the fixture store with every peer unreachable,
`Set` returns the quorum-not-met error, yet the key reads back locally. -/
theorem c8_witness :
    GetOp (setData sW "k" "v") "k" = ("v", true) ∧
    (SetOp sW "k" "v" false oracleDown 9).map (fun t => t.2.2) =
      some (some (.replicationFailed (.quorumNotMet 0))) := by
  constructor
  · exact (c8_local_write_survives_failure sW "k" "v" oracleDown 9
      (setData sW "k" "v",
        ["a", "b", "c"].map (fun n => Request.mk n "PUT" "k" "v"),
        some (.replicationFailed (.quorumNotMet 0)))
      (by decide) (by decide) rfl).2
  · rfl

/-- C9: empty-input validation short-circuits before any mutation and
before any fan-out: `Set` with an empty key or empty value and `Delete`
with an empty key return the validation error, leave the store state
untouched, and issue zero outbound requests — for either value of
`skipReplication`. -/
theorem c9_empty_input_short_circuits :
    ∀ (s : StoreSt) (k v : String) (b : Bool) (oracle : String → PeerOutcome)
      (fuel : Nat),
      SetOp s "" v b oracle fuel = some (s, [], some .emptyKeyOrValue) ∧
      SetOp s k "" b oracle fuel = some (s, [], some .emptyKeyOrValue) ∧
      DeleteOp s "" b oracle fuel = some (s, [], some .emptyKey) := by
  intro s k v b oracle fuel
  refine ⟨?_, ?_, ?_⟩
  · unfold SetOp
    rw [if_pos (Or.inl rfl)]
  · unfold SetOp
    rw [if_pos (Or.inr rfl)]
  · unfold DeleteOp
    rw [if_pos rfl]

/-- C10: with replication factor 0 — whatever the configured peers, the
ring state and the write quorum — `Set` and `Delete` with valid inputs
succeed immediately and issue zero outbound requests (`replicate` returns
before the ring lookup, the walk and the quorum check); and a store built
by `NewStore` with replication factor 0 always has replication factor 0. -/
theorem c10_zero_replication_factor_local_only
    (s : StoreSt) (k v : String) (oracle : String → PeerOutcome) (fuel : Nat)
    (hR : s.replicationFactor = 0) (hk : k ≠ "") (hv : v ≠ "") :
    SetOp s k v false oracle fuel = some (setData s k v, [], none) ∧
    DeleteOp s k false oracle fuel = some (delData s k, [], none) ∧
    (∀ nodes : List String, (NewStore nodes 0).replicationFactor = 0) := by
  refine ⟨?_, ?_, ?_⟩
  · simp only [SetOp, handleReplication, replicate, setData, hk, hv, hR]
    simp
  · simp only [DeleteOp, handleReplication, replicate, delData, hk, hR]
    simp
  · intro nodes
    unfold NewStore
    split_ifs <;> rfl

/-- Witness for C10: `NewStore` over a single peer forces the
replication factor to 0 even when 5 was requested, and `Set` succeeds
locally with no outbound requests. -/
theorem c10_witness :
    SetOp (NewStore ["solo"] 5) "k" "v" false oracleDown 3 =
      some (setData (NewStore ["solo"] 5) "k" "v", [], none) :=
  (c10_zero_replication_factor_local_only (NewStore ["solo"] 5) "k" "v"
    oracleDown 3 rfl (by decide) (by decide)).1

end KVStore
